import Mathlib

/-!
Shallow embedding of `createpdfs.py` (PyBeach badge creator).

The script is a linear batch transform: read attendee rows from a CSV,
filter them, and draw up to six badges per US-Letter page.  We embed the
row-level data handling, the font-fitting loop, the role-line computation,
the pronoun rendering guard and the pagination counter, and prove the
spec's claims about them.

A pandas cell is either a string or NaN (missing).  We model it as `PdVal`.
-/

inductive PdVal where
  | nan : PdVal
  | s : String → PdVal
deriving DecidableEq

/-- `pd.isna` on a cell. -/
def pdIsna : PdVal → Bool
  | .nan => true
  | .s _ => false

/-- pandas `cell == "lit"`: NaN compares unequal to every string. -/
def pdEqStr : PdVal → String → Bool
  | .nan, _ => false
  | .s v, w => v = w

/-- pandas `cell != "lit"`: NaN is unequal to every string, hence kept. -/
def pdNeStr (v : PdVal) (w : String) : Bool := !(pdEqStr v w)

/-- One input row, with the columns the script reads (lines 127-171). -/
structure Row where
  ticket : PdVal
  photoOptOut : PdVal
  name : PdVal
  jobTitle : PdVal
  companyName : PdVal
  school : PdVal
  pronounConsent : PdVal
  pronouns : PdVal
deriving DecidableEq

/-- Line 97: `df_filtered = df[df['Ticket'] != 'Donate to PyBeach']`.
The result of this line is immediately overwritten by line 98. -/
def ticket_filter (df : List Row) : List Row :=
  df.filter (fun r => pdNeStr r.ticket "Donate to PyBeach")

/-- Lines 97-100.  Line 98 is
`df_filtered = df[df['Photo opt-out'].notna()]` — it filters `df`, not the
`df_filtered` produced by line 97, so only the photo-opt-out condition
survives into the processed frame. -/
def df_filtered (df : List Row) : List Row :=
  df.filter (fun r => !(pdIsna r.photoOptOut))

/-! ### Pronoun rendering guard (lines 146-152)

```
pronouns_option = row['Would you like your pronouns printed on your badge?']
if not pd.isna(pronouns_option) and pronouns_option.startswith('Yes'):
    pronouns = row['Pronouns']
    if not pd.isna(pronouns) and pronouns != "-":
        c.drawRightString(..., pronouns)
```
`pronounDrawn` returns the string drawn, or `none` when nothing is drawn. -/

def pronounDrawn (consentOpt pronouns : PdVal) : Option String :=
  match consentOpt with
  | .nan => none
  | .s c =>
    if c.startsWith "Yes" then
      match pronouns with
      | .nan => none
      | .s p => if p = "-" then none else some p
    else none

/-! ### Role/affiliation line (lines 162-195)

Lines 163-178 compute the Python variable `company`; its value can still be
the NaN float (Corporate ticket whose company cell is NaN and title is NaN),
and the string concatenation `f"{title}, " + company` raises `TypeError`
when `company` is NaN.  `companyValue` returns `.error` for a raised
exception, otherwise the resulting cell value. -/

def companyValue (typ title companyName school : PdVal) : Except String PdVal :=
  if pdEqStr typ "Early Bird Corporate" || pdEqStr typ "Corporate" then
    -- line 167: company = row["Ticket Company Name"]
    -- line 168-169: if not pd.isna(title): company = f"{title}, " + company
    match title, companyName with
    | .s t, .s cn => .ok (.s (t ++ ", " ++ cn))
    | .s _, .nan => .error "TypeError: can only concatenate str to str"
    | .nan, cn => .ok cn
  else if pdEqStr typ "Early Bird Student" || pdEqStr typ "Student" then
    -- lines 171-175 (note the source's literal spelling "Sudent" on line 173)
    match school with
    | .s sch => .ok (.s ("Sudent, " ++ sch))
    | .nan => .ok (.s "Student")
  else
    -- lines 176-178; `company` was initialised to "" on line 165
    match title with
    | .s t => .ok (.s t)
    | .nan => .ok (.s "")

/-- Outcome of the role-line part of rendering one badge. -/
inductive RenderResult where
  | raised (msg : String)
  | drawn (roleLine : Option String)
deriving DecidableEq

def RenderResult.isRaised : RenderResult → Bool
  | .raised _ => true
  | .drawn _ => false

/-- Lines 162-195: compute `company` and draw it.  A `company` that is still
NaN reaches `return_fontsize_that_fits(badge_width, company, 16)` on
line 192, where `stringWidth` raises on a float argument; an empty string
skips the role line (lines 180, 191); any other string is drawn
(line 195). -/
def roleRender (typ title companyName school : PdVal) : RenderResult :=
  match companyValue typ title companyName school with
  | .error m => .raised m
  | .ok .nan => .raised "TypeError: stringWidth expects a string"
  | .ok (.s line) => if line = "" then .drawn none else .drawn (some line)

/-! ### Pagination (lines 121-126, 214, 216)

```
badge_count = 0
for ...:
    if badge_count == 6:
        c.showPage(); ...; badge_count = 0
    ...
    badge_count += 1
c.save()
```
We track, over `n` processed (eligible) records, the pair
(current page's badge count, list of flushed full pages).  `c.save()`
flushes the final page once. -/

def pageStep (st : ℕ × List ℕ) : ℕ × List ℕ :=
  -- lines 123-126: when badge_count is 6 the full page is flushed and
  -- badge_count reset to 0; line 214 then increments it for the badge
  -- just drawn.
  if st.1 = 6 then (0 + 1, st.2 ++ [6]) else (st.1 + 1, st.2)

def runPages : ℕ → ℕ × List ℕ
  | 0 => (0, [])
  | n + 1 => pageStep (runPages n)

/-- Page occupancies after processing `n` eligible records and saving. -/
def paginate (n : ℕ) : List ℕ :=
  (runPages n).2 ++ [(runPages n).1]

/-! ### Whitespace handling (lines 127, 185)

Python whitespace (the ASCII part; the exact character class does not
matter for the claims below). -/

def pyIsSpace (c : Char) : Bool :=
  c = ' ' || c = '\t' || c = '\n' || c = '\x0d' || c = '\x0b' || c = '\x0c'

/-- Python `str.strip()` on the character list: drop whitespace from both
ends. -/
def stripBoth (l : List Char) : List Char :=
  (((l.dropWhile pyIsSpace).reverse).dropWhile pyIsSpace).reverse

/-- `re.sub(r"\s+", " ", ·)`: replace every maximal run of whitespace
characters by a single space.  A run is collapsed by skipping each
whitespace character that is followed by another one and emitting `' '`
for the last character of the run. -/
def collapseWS : List Char → List Char
  | [] => []
  | [c] => if pyIsSpace c then [' '] else [c]
  | c :: d :: rest =>
    if pyIsSpace c && pyIsSpace d then collapseWS (d :: rest)
    else (if pyIsSpace c then ' ' else c) :: collapseWS (d :: rest)

/-- Python `name.strip()` (line 127). -/
def pyStrip (v : String) : String := ⟨stripBoth v.data⟩

/-- Line 185: `cleaned_name = re.sub(r"\s+", " ", name).strip()`. -/
def cleaned_name (v : String) : String := ⟨stripBoth (collapseWS v.data)⟩

/-! ### Name handling per row (lines 127-132)

```
name = row["What name would you like printed on your badge?"].strip()
if pd.isna(name):
    print(f'Error with row {index}: name is missing a value.')
    continue
if name[0] == '*':
    name = ''
```
A NaN cell is a float: `float('nan').strip()` raises `AttributeError`
before the `pd.isna` check runs.  For a string, `.strip()` yields a
string, so `pd.isna(name)` is always False and the skip branch is dead;
`name[0]` on an empty string raises `IndexError`. -/

inductive NameOutcome where
  | crash (msg : String)
  | skip
  | ok (printed : String)
deriving DecidableEq

def NameOutcome.isSkip : NameOutcome → Bool
  | .skip => true
  | _ => false

def nameStep (raw : PdVal) : NameOutcome :=
  match raw with
  | .nan => .crash "AttributeError: float object has no attribute strip"
  | .s v =>
    let name := pyStrip v
    if pdIsna (.s name) then .skip
    else if name = "" then .crash "IndexError: string index out of range"
    else if name.front = '*' then .ok "" else .ok name

/-! ### Text fitter (lines 14-31)

```
def return_fontsize_that_fits(badge_width, text, font_size):
    text_width = stringWidth(text, 'Helvetica', font_size)
    while text_width > badge_width:
        font_size -= 3
        text_width = stringWidth(text, 'Helvetica', font_size)
    return font_size
```
reportlab's `stringWidth(text, font, size)` is the sum of the font's
per-character widths (in thousandths of the em) scaled by `size / 1000`.
We model a text by its list of per-character widths.  The loop is embedded
with explicit fuel; `fitFuel_exit` below proves that the fuel chosen in
`return_fontsize_that_fits` always reaches the loop's exit condition, so
the definition agrees with the Python `while` loop. -/

def stringWidth (text : List ℚ) (fontSize : ℤ) : ℚ :=
  text.sum * fontSize / 1000

def fitFuel (badge_width : ℚ) (text : List ℚ) : ℕ → ℤ → ℤ
  | 0, fs => fs
  | n + 1, fs =>
    if badge_width < stringWidth text fs then fitFuel badge_width text n (fs - 3)
    else fs

def return_fontsize_that_fits (badge_width : ℚ) (text : List ℚ) (font_size : ℤ) : ℤ :=
  fitFuel badge_width text (font_size.toNat + 1) font_size

/-! ## Supporting lemmas -/

lemma fitFuel_le (badge_width : ℚ) (text : List ℚ) :
    ∀ (n : ℕ) (fs : ℤ), fitFuel badge_width text n fs ≤ fs := by
  intro n
  induction n with
  | zero => intro fs; simp [fitFuel]
  | succ n ih =>
    intro fs
    simp only [fitFuel]
    split
    · exact le_trans (ih (fs - 3)) (by omega)
    · exact le_refl fs

lemma stringWidth_nonpos (text : List ℚ) (htext : ∀ w ∈ text, 0 ≤ w)
    (fs : ℤ) (hfs : fs ≤ 0) : stringWidth text fs ≤ 0 := by
  unfold stringWidth
  have hsum : 0 ≤ text.sum := List.sum_nonneg htext
  have hfsq : (fs : ℚ) ≤ 0 := by exact_mod_cast hfs
  have h1 : text.sum * (fs : ℚ) ≤ 0 := mul_nonpos_iff.mpr (Or.inl ⟨hsum, hfsq⟩)
  have : (0 : ℚ) < 1000 := by norm_num
  exact div_nonpos_of_nonpos_of_nonneg h1 (by norm_num)

lemma loop_cond_pos (badge_width : ℚ) (text : List ℚ) (hbw : 0 ≤ badge_width)
    (htext : ∀ w ∈ text, 0 ≤ w) (fs : ℤ)
    (h : badge_width < stringWidth text fs) : 0 < fs := by
  by_contra h'
  push_neg at h'
  have := stringWidth_nonpos text htext fs h'
  linarith

lemma fitFuel_exit (badge_width : ℚ) (text : List ℚ) (hbw : 0 ≤ badge_width)
    (htext : ∀ w ∈ text, 0 ≤ w) :
    ∀ (n : ℕ) (fs : ℤ), fs ≤ 3 * n →
      stringWidth text (fitFuel badge_width text (n + 1) fs) ≤ badge_width := by
  intro n
  induction n with
  | zero =>
    intro fs hfs
    simp only [fitFuel]
    split
    · exfalso
      have := loop_cond_pos badge_width text hbw htext fs (by assumption)
      omega
    · exact le_of_not_lt (by assumption)
  | succ n ih =>
    intro fs hfs
    rw [show n + 1 + 1 = (n + 1) + 1 from rfl]
    simp only [fitFuel]
    split
    · have hpos := loop_cond_pos badge_width text hbw htext fs (by assumption)
      exact ih (fs - 3) (by omega)
    · exact le_of_not_lt (by assumption)

lemma runPages_invariant (n : ℕ) :
    (runPages n).1 ≤ 6 ∧ ∀ p ∈ (runPages n).2, p = 6 := by
  induction n with
  | zero => simp [runPages]
  | succ n ih =>
    obtain ⟨h1, h2⟩ := ih
    simp only [runPages, pageStep]
    by_cases h : (runPages n).1 = 6
    · rw [if_pos h]
      refine ⟨by omega, ?_⟩
      intro p hp
      rcases List.mem_append.1 hp with hp | hp
      · exact h2 p hp
      · simpa using hp
    · rw [if_neg h]
      exact ⟨by omega, h2⟩

/-! ## Claims -/

/-- Concrete row with the donation ticket type and a recorded photo
opt-out value. -/
def donateRow : Row :=
  { ticket := .s "Donate to PyBeach", photoOptOut := .s "Opt-out",
    name := .s "Jane Doe", jobTitle := .nan, companyName := .nan,
    school := .nan, pronounConsent := .nan, pronouns := .nan }

/-- C1: the claim says rows whose ticket type is 'Donate to PyBeach' are
excluded before processing.  In the code, line 98 rebuilds `df_filtered`
from `df` rather than from the result of line 97, so the donation filter
is discarded: a donation row with a photo-opt-out value survives into the
processed frame (and would be rendered), even though the line-97 filter by
itself would have removed it. -/
theorem donate_rows_not_excluded :
    df_filtered [donateRow] = [donateRow] ∧ ticket_filter [donateRow] = [] :=
  ⟨rfl, rfl⟩

/-- C2: the claim says a missing name is skipped with a per-row diagnostic
and processing continues.  In the code, line 127 calls `.strip()` on the
cell before the `pd.isna` check on line 128, and `.strip()` on the NaN
float raises `AttributeError`, aborting the run; the skip/diagnostic
branch is unreachable for every input. -/
theorem missing_name_crashes_run :
    nameStep .nan = .crash "AttributeError: float object has no attribute strip"
    ∧ ∀ v : PdVal, (nameStep v).isSkip = false := by
  refine ⟨rfl, ?_⟩
  intro v
  cases v with
  | nan => rfl
  | s v =>
    simp only [nameStep, pdIsna]
    split
    · simp_all
    · split
      · rfl
      · split <;> rfl

/-- C3 (amended): for a nonnegative box width and nonnegative character
widths, the fitter terminates and returns a size `s' ≤ s` at which the
measured width fits the box; it has no positive floor. -/
theorem fontsize_fits (badge_width : ℚ) (text : List ℚ) (font_size : ℤ)
    (hbw : 0 ≤ badge_width) (htext : ∀ w ∈ text, 0 ≤ w) :
    return_fontsize_that_fits badge_width text font_size ≤ font_size
    ∧ stringWidth text (return_fontsize_that_fits badge_width text font_size)
        ≤ badge_width := by
  constructor
  · exact fitFuel_le badge_width text _ font_size
  · unfold return_fontsize_that_fits
    exact fitFuel_exit badge_width text hbw htext font_size.toNat font_size (by omega)

theorem fontsize_fits_witness :
    return_fontsize_that_fits 288 [(556 : ℚ)] 20 ≤ 20
    ∧ stringWidth [(556 : ℚ)] (return_fontsize_that_fits 288 [(556 : ℚ)] 20) ≤ 288 :=
  fontsize_fits 288 [(556 : ℚ)] 20 (by norm_num)
    (by intro w hw; rw [List.mem_singleton] at hw; rw [hw]; norm_num)

/-- C3 (counterexample): on a 300-character text of Helvetica width 556
each, the loop decrements 20, 17, 14, 11, 8, 5, 2, -1 and returns -1: the
fitter can return a non-positive size, so there is no positive floor. -/
theorem fontsize_nonpositive_counterexample :
    return_fontsize_that_fits 288 (List.replicate 300 (556 : ℚ)) 20 = -1
    ∧ return_fontsize_that_fits 288 (List.replicate 300 (556 : ℚ)) 20 ≤ 0 := by
  have h : return_fontsize_that_fits 288 (List.replicate 300 (556 : ℚ)) 20 = -1 := by
    norm_num [return_fontsize_that_fits, fitFuel, stringWidth, List.sum_replicate]
  exact ⟨h, by rw [h]; norm_num⟩

/-- C4: the role line for a Student ticket with a school is spelled
`"Sudent, …"` in the code (line 173's literal), not `"Student, …"` as the
claim states; the Corporate and no-school branches behave as claimed. -/
theorem student_roleline_misspelled :
    roleRender (.s "Student") .nan .nan (.s "State U")
        = .drawn (some "Sudent, State U")
    ∧ roleRender (.s "Corporate") (.s "Engineer") (.s "Acme") .nan
        = .drawn (some "Engineer, Acme")
    ∧ roleRender (.s "Student") .nan .nan .nan = .drawn (some "Student") :=
  ⟨rfl, rfl, rfl⟩

/-- C5: at most 6 badges are placed on any page; when the count reaches 6
the next badge flushes the page and restarts the count at slot 0 (then 1
after the badge is drawn); 13 eligible records produce page occupancies
6, 6, 1, the last page being flushed once by the final save. -/
theorem pagination_six_per_page :
    (∀ n : ℕ, ∀ p ∈ paginate n, p ≤ 6)
    ∧ (∀ n : ℕ, (runPages n).1 = 6 →
        runPages (n + 1) = (1, (runPages n).2 ++ [6]))
    ∧ paginate 13 = [6, 6, 1] := by
  refine ⟨?_, ?_, by decide⟩
  · intro n p hp
    obtain ⟨h1, h2⟩ := runPages_invariant n
    simp only [paginate] at hp
    rcases List.mem_append.1 hp with hp | hp
    · exact le_of_eq (h2 p hp)
    · simp only [List.mem_singleton] at hp
      omega
  · intro n h
    simp [runPages, pageStep, h]

theorem pagination_six_per_page_witness :
    (1 : ℕ) ≤ 6 ∧ runPages 7 = (1, (runPages 6).2 ++ [6]) :=
  ⟨pagination_six_per_page.1 13 1 (by decide),
   pagination_six_per_page.2.1 6 (by decide)⟩

/-- C6 (amended): a missing job title, school, pronoun-consent or pronoun
text never raises — the corresponding element is omitted and the badge
still renders; the carve-out forced by the counterexample is the company
name, whose absence on a Corporate-family row raises instead of degrading
(the attendee-category column is never read by this script). -/
theorem optional_fields_degrade_gracefully :
    (∀ (cn : String) (sch : PdVal),
      (roleRender (.s "Corporate") .nan (.s cn) sch).isRaised = false)
    ∧ (∀ t cn : PdVal, roleRender (.s "Student") t cn .nan = .drawn (some "Student"))
    ∧ (∀ cn sch : PdVal, roleRender (.s "General") .nan cn sch = .drawn none)
    ∧ (∀ consent : PdVal, pronounDrawn consent .nan = none)
    ∧ (∀ p : PdVal, pronounDrawn .nan p = none) := by
  refine ⟨?_, ?_, ?_, ?_, ?_⟩
  · intro cn sch
    by_cases h : cn = "" <;>
      simp [roleRender, companyValue, pdEqStr, h, RenderResult.isRaised]
  · intro t cn
    simp [roleRender, companyValue, pdEqStr]
  · intro cn sch
    simp [roleRender, companyValue, pdEqStr]
  · intro consent
    cases consent with
    | nan => rfl
    | s c =>
      simp only [pronounDrawn]
      split <;> rfl
  · intro p
    rfl

/-- C6 (counterexample): a Corporate row with a job title but missing
company name raises `TypeError` at line 169's string concatenation instead
of degrading gracefully. -/
theorem corporate_missing_company_raises :
    roleRender (.s "Corporate") (.s "Engineer") .nan .nan
      = .raised "TypeError: can only concatenate str to str" :=
  rfl

/-- C7: every row surviving the line-98 filter has a recorded (non-NaN)
photo-opt-out value, so a row with an empty photo-opt-out field is
excluded and never rendered. -/
theorem photo_optout_rows_excluded :
    ∀ (df : List Row) (r : Row), r ∈ df_filtered df →
      pdIsna r.photoOptOut = false := by
  intro df r hr
  simp only [df_filtered, List.mem_filter] at hr
  simpa using hr.2

theorem photo_optout_rows_excluded_witness :
    pdIsna (Row.mk (.s "General") (.s "Opt-out") (.s "Jane Doe") .nan .nan
      .nan .nan .nan).photoOptOut = false :=
  photo_optout_rows_excluded
    [Row.mk (.s "General") (.s "Opt-out") (.s "Jane Doe") .nan .nan .nan .nan .nan]
    (Row.mk (.s "General") (.s "Opt-out") (.s "Jane Doe") .nan .nan .nan .nan .nan)
    (by decide)

/-- C8: the pronoun sentinel "-" is never drawn, whatever the consent cell
holds — including an affirmative one beginning with "Yes". -/
theorem pronoun_sentinel_never_drawn :
    ∀ consent : PdVal, pronounDrawn consent (.s "-") = none := by
  intro consent
  cases consent with
  | nan => rfl
  | s c =>
    simp only [pronounDrawn]
    split <;> rfl

/-- C10: a name cell that is a string of pure whitespace strips to the
empty string on line 127, is not NaN (so it is not skipped), and line
131's `name[0]` then raises `IndexError`, aborting the run — no badge with
a blank name is rendered and the row is not skipped. -/
theorem whitespace_name_raises_index_error :
    ∀ v : String, pyStrip v = "" →
      nameStep (.s v) = .crash "IndexError: string index out of range" := by
  intro v hv
  simp only [nameStep, pdIsna, hv]
  rfl

theorem whitespace_name_raises_index_error_witness :
    nameStep (.s "   ") = .crash "IndexError: string index out of range" :=
  whitespace_name_raises_index_error "   " (by decide)

/-! ## Name normalization: shape of `re.sub(r"\s+", " ", name).strip()`

`NormShape l` says every whitespace character of `l` is a plain `' '` and
no two adjacent characters are both whitespace — the shape produced by the
collapse step; a stripped list of this shape is a fixed point of the whole
normalization. -/

def wsOk (a b : Char) : Prop := ¬(pyIsSpace a = true ∧ pyIsSpace b = true)

def NormShape (l : List Char) : Prop :=
  (∀ c ∈ l, pyIsSpace c = true → c = ' ') ∧ List.Chain' wsOk l

lemma collapseWS_head_not_space (d : Char) (rest : List Char)
    (h : pyIsSpace d = false) : (collapseWS (d :: rest)).head? = some d := by
  cases rest with
  | nil => simp [collapseWS, h]
  | cons e rest => simp [collapseWS, h]

lemma collapseWS_normshape (l : List Char) : NormShape (collapseWS l) := by
  induction l using collapseWS.induct with
  | case1 =>
    simp only [collapseWS]
    exact ⟨by simp, List.chain'_nil⟩
  | case2 c hc =>
    simp only [collapseWS, if_pos hc]
    refine ⟨?_, List.chain'_singleton _⟩
    intro x hx _
    simpa using hx
  | case3 c hc =>
    simp only [collapseWS, if_neg hc]
    refine ⟨?_, List.chain'_singleton _⟩
    intro x hx hsp
    rw [List.mem_singleton] at hx
    subst hx
    exact absurd hsp hc
  | case4 c d rest h ih =>
    simpa only [collapseWS, if_pos h] using ih
  | case5 c d rest h ih =>
    obtain ⟨ihm, ihc⟩ := ih
    simp only [collapseWS, if_neg h]
    by_cases hc : pyIsSpace c = true
    · rw [if_pos hc]
      have hd : pyIsSpace d = false := by
        cases hdd : pyIsSpace d
        · rfl
        · exact absurd (by simp [hc, hdd]) h
      constructor
      · intro x hx _
        rcases List.mem_cons.1 hx with hx | hx
        · exact hx
        · exact ihm x hx ‹_›
      · rw [List.chain'_cons']
        refine ⟨?_, ihc⟩
        intro y hy
        rw [collapseWS_head_not_space d rest hd] at hy
        rw [Option.mem_def, Option.some.injEq] at hy
        subst hy
        intro hcontra
        rw [hd] at hcontra
        exact absurd hcontra.2 (by simp)
    · rw [if_neg hc]
      constructor
      · intro x hx hsp
        rcases List.mem_cons.1 hx with hx | hx
        · subst hx; exact absurd hsp hc
        · exact ihm x hx hsp
      · rw [List.chain'_cons']
        refine ⟨?_, ihc⟩
        intro y hy
        intro hcontra
        exact hc hcontra.1

lemma collapseWS_of_normshape (l : List Char) (hl : NormShape l) :
    collapseWS l = l := by
  induction l using collapseWS.induct with
  | case1 => rfl
  | case2 c hc =>
    have : c = ' ' := hl.1 c (by simp) hc
    simp [collapseWS, hc, this]
  | case3 c hc => simp [collapseWS, hc]
  | case4 c d rest h ih =>
    exfalso
    exact (List.chain'_cons.1 hl.2).1 (by simpa using h)
  | case5 c d rest h ih =>
    have htail : NormShape (d :: rest) :=
      ⟨fun x hx => hl.1 x (List.mem_cons_of_mem c hx), hl.2.tail⟩
    simp only [collapseWS, if_neg h, ih htail]
    by_cases hc : pyIsSpace c = true
    · rw [if_pos hc, hl.1 c (by simp) hc]
    · rw [if_neg hc]

lemma normshape_suffix {l m : List Char} (h : NormShape l) (hs : m <:+ l) :
    NormShape m :=
  ⟨fun c hc => h.1 c (hs.subset hc), h.2.suffix hs⟩

lemma wsOk_symm {a b : Char} (h : wsOk a b) : wsOk b a :=
  fun hab => h ⟨hab.2, hab.1⟩

lemma normshape_reverse {l : List Char} (h : NormShape l) :
    NormShape l.reverse := by
  refine ⟨fun c hc => h.1 c (List.mem_reverse.1 hc), ?_⟩
  rw [List.chain'_reverse]
  exact h.2.imp (fun a b hab => wsOk_symm hab)

lemma normshape_stripBoth {l : List Char} (h : NormShape l) :
    NormShape (stripBoth l) :=
  normshape_reverse
    (normshape_suffix
      (normshape_reverse (normshape_suffix h (List.dropWhile_suffix _)))
      (List.dropWhile_suffix _))

def HeadNotSpace (l : List Char) : Prop := ∀ c ∈ l.head?, pyIsSpace c = false

def LastNotSpace (l : List Char) : Prop := ∀ c ∈ l.getLast?, pyIsSpace c = false

lemma headNot_dropWhile (l : List Char) :
    HeadNotSpace (l.dropWhile pyIsSpace) := by
  induction l with
  | nil => intro c hc; simp at hc
  | cons a l ih =>
    rw [List.dropWhile_cons]
    by_cases ha : pyIsSpace a = true
    · rw [if_pos ha]; exact ih
    · rw [if_neg ha]
      intro c hc
      rw [List.head?_cons, Option.mem_def, Option.some.injEq] at hc
      subst hc
      simpa using ha

lemma dropWhile_of_headNot {l : List Char} (h : HeadNotSpace l) :
    l.dropWhile pyIsSpace = l := by
  cases l with
  | nil => rfl
  | cons a l =>
    have ha : pyIsSpace a = false := h a (by simp)
    rw [List.dropWhile_cons, if_neg (by simp [ha])]

lemma getLast?_dropWhile (l : List Char) (h : l.dropWhile pyIsSpace ≠ []) :
    (l.dropWhile pyIsSpace).getLast? = l.getLast? := by
  induction l with
  | nil => simp at h
  | cons a l ih =>
    rw [List.dropWhile_cons]
    by_cases ha : pyIsSpace a = true
    · rw [List.dropWhile_cons, if_pos ha] at h
      rw [if_pos ha, ih h]
      have hl : l ≠ [] := by
        intro he
        rw [he] at h
        simp at h
      obtain ⟨b, l', rfl⟩ := List.exists_cons_of_ne_nil hl
      rw [List.getLast?_cons_cons]
    · rw [if_neg ha]

lemma stripBoth_tight (l : List Char) :
    HeadNotSpace (stripBoth l) ∧ LastNotSpace (stripBoth l) := by
  unfold stripBoth
  constructor
  · intro c hc
    rw [List.head?_reverse] at hc
    by_cases hBe : ((l.dropWhile pyIsSpace).reverse).dropWhile pyIsSpace = []
    · rw [hBe] at hc
      simp at hc
    · rw [getLast?_dropWhile _ hBe, List.getLast?_reverse] at hc
      exact headNot_dropWhile l c hc
  · intro c hc
    rw [List.getLast?_reverse] at hc
    exact headNot_dropWhile _ c hc

lemma stripBoth_of_tight {m : List Char} (hh : HeadNotSpace m)
    (hl : LastNotSpace m) : stripBoth m = m := by
  unfold stripBoth
  rw [dropWhile_of_headNot hh]
  have hrev : HeadNotSpace m.reverse := by
    intro c hc
    rw [List.head?_reverse] at hc
    exact hl c hc
  rw [dropWhile_of_headNot hrev, List.reverse_reverse]

lemma cleanedL_idem (l : List Char) :
    stripBoth (collapseWS (stripBoth (collapseWS l))) =
      stripBoth (collapseWS l) := by
  have hm : NormShape (collapseWS l) := collapseWS_normshape l
  have hF : NormShape (stripBoth (collapseWS l)) := normshape_stripBoth hm
  rw [collapseWS_of_normshape _ hF]
  obtain ⟨hh, hl⟩ := stripBoth_tight (collapseWS l)
  exact stripBoth_of_tight hh hl

/-- C9: the line-185 normalisation (collapse each whitespace run to one
space, then strip the ends) is idempotent: applied to its own output it
returns the string unchanged. -/
theorem cleaned_name_idempotent :
    ∀ v : String, cleaned_name (cleaned_name v) = cleaned_name v := by
  intro v
  simp only [cleaned_name]
  exact congrArg String.mk (cleanedL_idem v.data)
